import Mathlib

/-!
Verification development for the message-orchestration subsystem of a
WhatsApp conversational bot.  The definitions below are a shallow embedding
of the TypeScript sources:

  * `src/modules/message-orchestrator/redis-state.ts`
      (batch store, processing lock, generation counter, abort-controller
       registry, per-sender, redis-available path),
  * `src/modules/message-orchestrator/redis-entry-agent.ts`
      (`handleIncomingMessage`, `processUserBatch`),
  * `src/modules/message-orchestrator/processor.ts`
      (`combineMessages`, `processBatch`, `checkForNewMessagesBeforeSending`),
  * `src/modules/message-orchestrator/config.ts` (`orchestratorConfig`).

Strings are modelled as `List Char`; machine time as `Nat` milliseconds.
All state is per sender (the sender key is the only coordination boundary).
-/

/-- Convert a Lean string literal to the `List Char` representation used by
the embedding. -/
def str (s : String) : List Char := s.data

/-- JavaScript whitespace class (the ASCII part of `\s`, which is all the
sources ever produce): space, tab, newline, carriage return, vertical tab,
form feed. -/
def isWs (c : Char) : Bool :=
  c = ' ' || c = '\t' || c = '\n' || c = '\r' || c = Char.ofNat 11 || c = Char.ofNat 12

/-- `String.prototype.trimStart`: drop leading whitespace. -/
def trimStart (x : List Char) : List Char := x.dropWhile isWs

/-- `String.prototype.trimEnd`: drop trailing whitespace. -/
def trimEnd (x : List Char) : List Char := (x.reverse.dropWhile isWs).reverse

/-- `String.prototype.trim` = trim both ends. -/
def jsTrim (x : List Char) : List Char := trimEnd (trimStart x)

/-- `String.prototype.toUpperCase` (ASCII range, enough for the RESET test). -/
def jsToUpperCase (x : List Char) : List Char := x.map Char.toUpper

theorem dropWhile_length_le (p : α → Bool) (l : List α) :
    (l.dropWhile p).length ≤ l.length := by
  induction l with
  | nil => simp
  | cons a l ih =>
    by_cases h : p a
    · simp only [List.dropWhile_cons, h, if_true]
      exact Nat.le_succ_of_le ih
    · simp [List.dropWhile_cons, h]

/-- `replace(/\s+/g, ' ')`: each maximal whitespace run becomes one space.
Mirrors the global regex scan of `processor.ts` line 24. -/
def collapse (x : List Char) : List Char :=
  match x with
  | [] => []
  | c :: cs =>
    if isWs c then ' ' :: collapse (cs.dropWhile isWs)
    else c :: collapse cs
termination_by x.length
decreasing_by
  · exact Nat.lt_succ_of_le (dropWhile_length_le ..)
  · exact Nat.lt_succ_of_le (Nat.le_refl _)

/-- `Array.prototype.join(' ')` on a list of strings. -/
def joinSp : List (List Char) → List Char
  | [] => []
  | [w] => w
  | w :: ws => w ++ ' ' :: joinSp ws

/-- Specification-side view of a string: its maximal runs of non-whitespace
characters, in order. -/
def words (x : List Char) : List (List Char) :=
  match x with
  | [] => []
  | c :: cs =>
    if isWs c then words cs
    else (c :: cs.takeWhile (fun d => !isWs d)) :: words (cs.dropWhile (fun d => !isWs d))
termination_by x.length
decreasing_by
  · exact Nat.lt_succ_of_le (Nat.le_refl _)
  · exact Nat.lt_succ_of_le (dropWhile_length_le ..)

/-- `combineMessages` (`processor.ts` lines 14-26): a single message passes
through unchanged; otherwise trim each message, drop empties, join with
single spaces, collapse whitespace runs, trim the result. -/
def combineMessages (messages : List (List Char)) : List Char :=
  match messages with
  | [m] => m
  | ms => jsTrim (collapse (joinSp ((ms.map jsTrim).filter (fun x => x ≠ []))))

/-! ## Data model (`types.ts`, `redis-state.ts`) -/

/-- `IncomingMessage` (`types.ts`): one inbound event. -/
structure IncomingMessage where
  id : List Char
  sender : List Char
  content : List Char
  timestamp : Nat
  whatsappPhoneId : Option (List Char)
deriving Repr, DecidableEq

/-- `MessageBatch` (`types.ts`): the unit handed to `processBatch`. -/
structure MessageBatch where
  phoneNumber : List Char
  messages : List IncomingMessage
  firstMessageAt : Nat
  lastMessageAt : Nat
  whatsappPhoneId : Option (List Char)
deriving Repr, DecidableEq

/-- The shared per-sender state touched by the orchestrator (redis keys
`orchestrator:batch:…`, `orchestrator:lock:…`, `orchestrator:generation:…`,
the in-memory `global.abortControllers` slice for this sender, the session
store entry, and the outbound channel transcript).

* `batch`: the redis list behind `addMessageToBatch`/`getBatch`/`clearBatch`.
* `lock`: `some e` models the lock key existing until time `e` (ms).
* `generation`: the generation key; `none` models an absent key.
* `controllers`: `global.abortControllers` entries `(generation, controllerId)`.
* `aborted`: ids of controllers whose `abort()` has been called.
* `nextCtrl`: allocator for `new AbortController()` identities.
* `sessionExists`/`sessionHistory`: the session-store entry
  (`SessionManager`), history as `(role, content)` pairs.
* `sent`: messages delivered through `sendMessage`, in order. -/
structure SysState where
  batch : List IncomingMessage
  lock : Option Nat
  generation : Option Nat
  controllers : List (Nat × Nat)
  aborted : List Nat
  nextCtrl : Nat
  sessionExists : Bool
  sessionHistory : List (List Char × List Char)
  sent : List (List Char)
deriving Repr, DecidableEq

/-! ## Redis state primitives (`redis-state.ts`, redis-available path) -/

/-- Is the lock key present (unexpired) at time `now`?  Backs both the
`EXISTS` of `isProcessing` and the `NX` condition of the lock `SET`. -/
def lockValid (now : Nat) (s : SysState) : Bool :=
  match s.lock with
  | some e => decide (now < e)
  | none => false

/-- `isProcessing` (lines 104-115): `EXISTS` on the lock key. -/
def isProcessing (now : Nat) (s : SysState) : Bool := lockValid now s

/-- `acquireProcessingLock` (lines 58-84): `SET key value NX EX ceil(ms/1000)`.
Returns whether the lock was acquired.  The expiry is stored in ms. -/
def acquireProcessingLock (now timeoutMs : Nat) (s : SysState) : Bool × SysState :=
  if lockValid now s then (false, s)
  else (true, { s with lock := some (now + 1000 * ((timeoutMs + 999) / 1000)) })

/-- `releaseProcessingLock` (lines 89-99): `DEL` on the lock key,
unconditional and idempotent. -/
def releaseProcessingLock (s : SysState) : SysState := { s with lock := none }

/-- `addMessageToBatch` (lines 120-137): `RPUSH` the serialized message
(the `EXPIRE` refresh only bounds garbage collection and is not modelled). -/
def addMessageToBatch (m : IncomingMessage) (s : SysState) : SysState :=
  { s with batch := s.batch ++ [m] }

/-- `getBatch` (lines 142-154): `LRANGE key 0 -1`, a plain read. -/
def getBatch (s : SysState) : List IncomingMessage := s.batch

/-- `clearBatch` (lines 159-169): `DEL` on the batch key, a separate
operation from the read. -/
def clearBatch (s : SysState) : SysState := { s with batch := [] }

/-- `getBatchSize` (lines 174-184): `LLEN`. -/
def getBatchSize (s : SysState) : Nat := s.batch.length

/-- `getProcessingGeneration` (lines 247-258): `GET`, parsed, defaulting to
`1` when the key is absent. -/
def getProcessingGeneration (s : SysState) : Nat := s.generation.getD 1

/-- `incrementProcessingGeneration` (lines 226-242): redis `INCR` — an
absent key is treated as `0`, so the first increment stores and returns
`1`.  Returns the new value. -/
def incrementProcessingGeneration (s : SysState) : Nat × SysState :=
  let n := s.generation.getD 0 + 1
  (n, { s with generation := some n })

/-- `new AbortController()`: allocate a fresh controller identity. -/
def newAbortController (s : SysState) : Nat × SysState :=
  (s.nextCtrl, { s with nextCtrl := s.nextCtrl + 1 })

/-- `setAbortController` (lines 263-273): `global.abortControllers.set`
keyed by `sender:generation` (replaces any entry for that generation). -/
def setAbortController (generation ctrl : Nat) (s : SysState) : SysState :=
  { s with controllers :=
      (generation, ctrl) :: s.controllers.filter (fun e => e.1 ≠ generation) }

/-- `getAbortController` (lines 278-291): look up the entry for exactly
that generation and remove it if present. -/
def getAbortController (generation : Nat) (s : SysState) : Option Nat × SysState :=
  match s.controllers.find? (fun e => e.1 = generation) with
  | some e =>
    (some e.2, { s with controllers := s.controllers.filter (fun e => e.1 ≠ generation) })
  | none => (none, s)

/-- `abortCurrentProcessing` (lines 296-312): read the *current* generation,
take the controller registered under that value, and `abort()` it unless it
already fired.  Returns whether an abort was signalled. -/
def abortCurrentProcessing (s : SysState) : Bool × SysState :=
  let currentGeneration := getProcessingGeneration s
  match getAbortController currentGeneration s with
  | (some ctrl, s1) =>
    if ctrl ∈ s1.aborted then (false, s1)
    else (true, { s1 with aborted := ctrl :: s1.aborted })
  | (none, s1) => (false, s1)

/-! ## Session manager and delivery collaborators (as used by the core) -/

/-- `sendMessage` (whatsapp messaging collaborator): record the delivery. -/
def sendMessage (s : SysState) (text : List Char) : SysState :=
  { s with sent := s.sent ++ [text] }

/-- `SessionManager.clearConversationHistory` (`session/manager.ts` lines
193-200): clears the history only when a session exists. -/
def clearConversationHistory (s : SysState) : SysState :=
  if s.sessionExists then { s with sessionHistory := [] } else s

/-- `SessionManager.deleteSession` (`session/manager.ts` lines 205-208):
removes the whole session entry, history included. -/
def deleteSession (s : SysState) : SysState :=
  { s with sessionExists := false, sessionHistory := [] }

/-- `SessionManager.getOrCreateSession`: ensures the session entry exists. -/
def getOrCreateSession (s : SysState) : SysState :=
  { s with sessionExists := true }

/-- `SessionManager.addMessage`: append a `(role, content)` turn. -/
def addSessionMessage (s : SysState) (role content : List Char) : SysState :=
  { s with sessionHistory := s.sessionHistory ++ [(role, content)] }

/-! ## Configuration (`config.ts`) -/

structure OrchestratorConfig where
  batchTimeoutMs : Nat
  maxBatchSize : Nat
  processingTimeoutMs : Nat
deriving Repr, DecidableEq

/-- `orchestratorConfig` (`config.ts` lines 6-15). -/
def orchestratorConfig : OrchestratorConfig :=
  { batchTimeoutMs := 2000, maxBatchSize := 5, processingTimeoutMs := 30000 }

/-! ## Entry agent (`redis-entry-agent.ts`) -/

/-- Outcome of one `handleIncomingMessage` call, naming which control-flow
branch of lines 22-94 ran.  `scheduleTimer`/`processImmediately` mark which
continuation the code takes after acquiring the lock (`setTimeout` of
`processUserBatch`, resp. the inline call). -/
inductive EntryAction where
  | resetHandled
  | interrupted (aborted : Bool) (newGeneration : Nat)
  | lockBusy
  | processImmediately
  | scheduleTimer (delayMs : Nat)
deriving Repr, DecidableEq

/-- The locked branch of `handleIncomingMessage` minus the append (lines
53-65): bump the generation, then try to abort the in-flight unit.  Also
run on its own by concurrent instances, it is the only interference an
active processing unit can observe besides plain appends. -/
def interruptCurrent (s : SysState) : Bool × Nat × SysState :=
  let (newGeneration, s1) := incrementProcessingGeneration s
  let (aborted, s2) := abortCurrentProcessing s1
  (aborted, newGeneration, s2)

/-- The reply text of the RESET branch (line 29). -/
def resetReply : List Char :=
  str "Reset completato. Conversazione cancellata. Ricominciamo da capo! 🔄"

/-- `handleIncomingMessage` (lines 14-100): RESET bypass, append to batch,
interrupt if locked, else acquire the lock and either process immediately
(batch at max size) or arm the debounce timer. -/
def handleIncomingMessage (now : Nat) (m : IncomingMessage) (s : SysState) :
    SysState × EntryAction :=
  if jsToUpperCase (jsTrim m.content) = str "RESET" then
    let s1 := clearConversationHistory s
    let s2 := deleteSession s1
    let s3 := sendMessage s2 resetReply
    (s3, .resetHandled)
  else
    let s1 := addMessageToBatch m s
    if isProcessing now s1 then
      let (aborted, newGeneration, s2) := interruptCurrent s1
      (s2, .interrupted aborted newGeneration)
    else
      let (lockAcquired, s2) := acquireProcessingLock now 30000 s1
      if !lockAcquired then (s2, .lockBusy)
      else if orchestratorConfig.maxBatchSize ≤ getBatchSize s2 then
        (s2, .processImmediately)
      else
        (s2, .scheduleTimer orchestratorConfig.batchTimeoutMs)

/-! ## Processor (`processor.ts`) and the processing loop
(`redis-entry-agent.ts` `processUserBatch`)

Awaited collaborator calls may reject at runtime; a rejection is modelled
as `Except.error` carrying a `JsError`.  `abortError` is an error object
whose `name` is `'AbortError'`; every other rejection is one of the other
constructors. -/

inductive JsError where
  | abortError
  | storeUnavailable
  | networkFailure
deriving Repr, DecidableEq

instance : DecidableEq (Except JsError Unit) := fun a b =>
  match a, b with
  | .ok (), .ok () => isTrue rfl
  | .error e1, .error e2 =>
    match decEq e1 e2 with
    | isTrue h => isTrue (by rw [h])
    | isFalse h => isFalse (fun hc => h (by cases hc; rfl))
  | .ok _, .error _ => isFalse (fun hc => Except.noConfusion hc)
  | .error _, .ok _ => isFalse (fun hc => Except.noConfusion hc)

/-- Fallback text sent by `processBatch`'s own catch (`processor.ts` line 118). -/
def processorErrorReply : List Char :=
  str "❌ Sorry, I encountered an error processing your messages. Please try again."

/-- Fallback text sent by `processUserBatch`'s outer catch
(`redis-entry-agent.ts` line 191). -/
def entryErrorReply : List Char :=
  str "❌ Sorry, I encountered an error processing your message. Please try again."

def userRole : List Char := str "user"
def assistantRole : List Char := str "assistant"

/-- `checkForNewMessagesBeforeSending` (`processor.ts` lines 130-171).
`storeRead` is the outcome of awaiting `redisOrchestratorState.getBatch`:
`none` means the call resolved normally (yielding the current batch),
`some e` models the promise rejecting with `e`.  On a non-empty batch the
function bumps the generation and raises an `AbortError` to force a
restart (discarding `response`); on a rejection with any non-abort error
the catch still sends the original `response`. -/
def checkForNewMessagesBeforeSending (storeRead : Option JsError)
    (s : SysState) (response : List Char) : SysState × Except JsError Unit :=
  match storeRead with
  | some e =>
    if e = JsError.abortError then (s, .error .abortError)
    else (sendMessage s response, .ok ())
  | none =>
    let currentMessages := getBatch s
    if currentMessages.length > 0 then
      let (_, s1) := incrementProcessingGeneration s
      (s1, .error .abortError)
    else
      (sendMessage s response, .ok ())

/-- External interference observable while an attempt is running.  Each
constructor is a composition of the shared-store operations a concurrent
`handleIncomingMessage` performs for the same sender:
* `interrupt m` — the locked branch: append, bump generation, try abort;
* `append m` — a bare batch append (e.g. the lock lapsed mid-attempt and
  the arriving event only queued before a new unit was scheduled). -/
inductive ExtOp where
  | interrupt (m : IncomingMessage)
  | append (m : IncomingMessage)
deriving Repr, DecidableEq

def applyExtOp (s : SysState) : ExtOp → SysState
  | .interrupt m => (interruptCurrent (addMessageToBatch m s)).2.2
  | .append m => addMessageToBatch m s

def applyExtOps (ops : List ExtOp) (s : SysState) : SysState :=
  ops.foldl applyExtOp s

/-- Schedule of one `processBatch` attempt: what the world does while the
attempt runs and how the AI collaborator resolves.
* `duringGen` — interference before/while the AI call runs (covered by the
  abort checkpoints at `processor.ts` lines 55, 66, 88 and the cooperative
  cancellation inside `processUserMessage`);
* `aiFails` — `processUserMessage` rejects with a non-abort error;
* `reply` — its reply on success;
* `beforeRecheck` — interference after the last abort checkpoint (line 88)
  and before the recheck reads the batch (line 139);
* `recheckRead` — injected outcome of the recheck's awaited store read
  (`none` in normal operation). -/
structure AttemptSpec where
  duringGen : List ExtOp
  aiFails : Bool
  reply : List Char
  beforeRecheck : List ExtOp
  recheckRead : Option JsError
deriving Repr, DecidableEq

/-- Schedule used once the supplied attempts run out: a quiet, successful
attempt. -/
def defaultAttempt : AttemptSpec :=
  { duringGen := [], aiFails := false, reply := str "ok",
    beforeRecheck := [], recheckRead := none }

/-- `processBatch` (`processor.ts` lines 31-125) under schedule `att`,
processing `mb` with the abort signal of controller `ctrl`.  Resolves with
`.ok` both on success and when its own catch swallows a non-abort error
(sending `processorErrorReply`); rejects only with `AbortError`, which the
catch re-throws for the restart logic. -/
def runProcessBatch (att : AttemptSpec) (mb : MessageBatch) (ctrl : Nat)
    (s : SysState) : SysState × Except JsError Unit :=
  let combinedMessage := combineMessages (mb.messages.map (fun m => m.content))
  let s0 := getOrCreateSession s
  let s1 := applyExtOps att.duringGen s0
  if ctrl ∈ s1.aborted then
    -- one of the abort checkpoints fired, or the AI call was cancelled
    (s1, .error .abortError)
  else if att.aiFails then
    -- catch of lines 108-124: non-abort error is absorbed here
    (sendMessage s1 processorErrorReply, .ok ())
  else
    let s2 := addSessionMessage (addSessionMessage s1 userRole combinedMessage)
      assistantRole att.reply
    let s3 := applyExtOps att.beforeRecheck s2
    checkForNewMessagesBeforeSending att.recheckRead s3 att.reply

/-- How one run of the `while (shouldRestart)` loop of `processUserBatch`
(`redis-entry-agent.ts` lines 128-183) ended. -/
inductive LoopExit where
  | emptyBatch
  | success
  | abortNoRestart
  | raisedError (e : JsError)
  | fuelOut
deriving Repr, DecidableEq

/-- Build the `MessageBatch` of lines 144-150. -/
def mkMessageBatch (msgs : List IncomingMessage) (m0 : IncomingMessage) :
    MessageBatch :=
  { phoneNumber := m0.sender,
    messages := msgs,
    firstMessageAt := m0.timestamp,
    lastMessageAt := ((msgs.getLast?).getD m0).timestamp,
    whatsappPhoneId := m0.whatsappPhoneId }

/-- The `while (shouldRestart)` loop (lines 128-183): drain, clear, run the
attempt; on `AbortError` re-read the generation and either restart with a
fresh controller (consuming the next attempt schedule) or stop.  `fuel`
bounds the recursion; the wrapper passes enough for every schedule. -/
def processingLoop : Nat → List AttemptSpec → Nat → Nat → SysState →
    SysState × LoopExit
  | 0, _, _, _, s => (s, .fuelOut)
  | fuel + 1, atts, generation, ctrl, s =>
    match getBatch s with
    | [] => (s, .emptyBatch)
    | m0 :: rest =>
      let mb := mkMessageBatch (m0 :: rest) m0
      let s1 := clearBatch s
      match runProcessBatch (atts.headD defaultAttempt) mb ctrl s1 with
      | (s2, .ok _) => (s2, .success)
      | (s2, .error .abortError) =>
        let currentGeneration := getProcessingGeneration s2
        if generation < currentGeneration then
          let (ctrl2, s3) := newAbortController s2
          let s4 := setAbortController currentGeneration ctrl2 s3
          processingLoop fuel atts.tail currentGeneration ctrl2 s4
        else (s2, .abortNoRestart)
      | (s2, .error e) => (s2, .raisedError e)

/-- The outer catch and the `finally` of `processUserBatch` (lines 185-201):
a non-abort error reaching the outer catch sends `entryErrorReply`; the
lock is always released afterwards. -/
def finishProcessing (p : SysState × LoopExit) : SysState × LoopExit :=
  match p with
  | (s, .raisedError e) =>
    let s1 := if e = JsError.abortError then s else sendMessage s entryErrorReply
    (releaseProcessingLock s1, .raisedError e)
  | (s, ex) => (releaseProcessingLock s, ex)

/-- Result of a whole `processUserBatch` call. -/
inductive RunOutcome where
  | skippedLockExpired
  | finished (ex : LoopExit)
deriving Repr, DecidableEq

/-- `processUserBatch` (lines 105-202): confirm the lock is still held,
read the generation, register a fresh abort controller under it, run the
processing loop, then release the lock in the guaranteed-run cleanup. -/
def processUserBatch (now : Nat) (atts : List AttemptSpec) (s : SysState) :
    SysState × RunOutcome :=
  if !isProcessing now s then (s, .skippedLockExpired)
  else
    let generation := getProcessingGeneration s
    let (ctrl, s1) := newAbortController s
    let s2 := setAbortController generation ctrl s1
    let (s3, ex) := finishProcessing (processingLoop (atts.length + 1) atts generation ctrl s2)
    (s3, .finished ex)

/-! ## Batch-store trace models (for the drain-atomicity analysis)

A "drain" in `processUserBatch` is the pair `getBatch` (lines 133) followed
by `clearBatch` (line 153).  `RawOp` exposes the two halves as separate
atomic store operations so concurrent interleavings can be expressed;
`SeqOp` runs the pair back-to-back (no interleaving). -/

inductive RawOp where
  | append (m : IncomingMessage)
  | drainRead (d : Nat)
  | drainClear (d : Nat)
deriving Repr, DecidableEq

/-- Run an interleaved trace; returns the final state and, per drain id,
the list that drain's read captured. -/
def runRawOps : List RawOp → SysState → List (Nat × List IncomingMessage) →
    SysState × List (Nat × List IncomingMessage)
  | [], s, outs => (s, outs)
  | .append m :: ops, s, outs => runRawOps ops (addMessageToBatch m s) outs
  | .drainRead d :: ops, s, outs => runRawOps ops s (outs ++ [(d, getBatch s)])
  | .drainClear _ :: ops, s, outs => runRawOps ops (clearBatch s) outs

inductive SeqOp where
  | append (m : IncomingMessage)
  | drain
deriving Repr, DecidableEq

/-- Run a trace in which every drain executes its read and clear with no
interleaving.  Returns the final state and the drained batches in order. -/
def runSeqOps : List SeqOp → SysState → SysState × List (List IncomingMessage)
  | [], s => (s, [])
  | .append m :: ops, s => runSeqOps ops (addMessageToBatch m s)
  | .drain :: ops, s =>
    let captured := getBatch s
    let (s1, outs) := runSeqOps ops (clearBatch s)
    (s1, captured :: outs)

/-- The events appended by a trace, in order. -/
def appendedOf : List SeqOp → List IncomingMessage
  | [] => []
  | .append m :: ops => m :: appendedOf ops
  | .drain :: ops => appendedOf ops

/-! ## Concrete inputs used by counterexamples and witnesses -/

def phone : List Char := str "+391234567890"

def msg1 : IncomingMessage :=
  { id := str "w1", sender := phone, content := str "uno", timestamp := 0,
    whatsappPhoneId := none }
def msg2 : IncomingMessage :=
  { id := str "w2", sender := phone, content := str "due", timestamp := 100,
    whatsappPhoneId := none }
def msg3 : IncomingMessage :=
  { id := str "w3", sender := phone, content := str "tre", timestamp := 200,
    whatsappPhoneId := none }
def msg4 : IncomingMessage :=
  { id := str "w4", sender := phone, content := str "quattro", timestamp := 300,
    whatsappPhoneId := none }
def msg5 : IncomingMessage :=
  { id := str "w5", sender := phone, content := str "cinque", timestamp := 400,
    whatsappPhoneId := none }

def emptyState : SysState :=
  { batch := [], lock := none, generation := none, controllers := [],
    aborted := [], nextCtrl := 0, sessionExists := false, sessionHistory := [],
    sent := [] }

/-! ## Claim C1 -/

/-- State of a sender whose Processing Loop iteration is running under
generation `1` (the generation key holds `1`) and has registered abort
controller `0` under that generation. -/
def c1state : SysState :=
  { batch := [], lock := some 1000000, generation := some 1,
    controllers := [(1, 0)], aborted := [], nextCtrl := 1,
    sessionExists := true, sessionHistory := [], sent := [] }

/-- Claim C1: evaluation of the interruption path (`handleIncomingMessage`
lines 50-66) at the failing input.  The running iteration registered its
abort controller under generation `1`; the arrival increments the
generation to `2` and `abortCurrentProcessing` then looks the handle up
under the post-increment value `2`, finds nothing, and returns `false`:
no controller is ever signalled (`aborted` stays empty) and the handle
registered under `1` stays in the registry.  This contradicts the claim
(and §4.3 of the spec), which require the handle registered under the
iteration's own generation `1` to be signalled. -/
theorem claim1_interrupt_lookup_uses_postincrement_generation :
    (interruptCurrent (addMessageToBatch msg2 c1state)).1 = false
    ∧ (interruptCurrent (addMessageToBatch msg2 c1state)).2.1 = 2
    ∧ ((interruptCurrent (addMessageToBatch msg2 c1state)).2.2).aborted = []
    ∧ ((interruptCurrent (addMessageToBatch msg2 c1state)).2.2).controllers = [(1, 0)]
    ∧ ((interruptCurrent (addMessageToBatch msg2 c1state)).2.2).generation = some 2 := by
  decide

/-! ## Claim C2 -/

/-- Interleaved trace in which `msg2` is appended between the read and the
clear of drain `0`. -/
def c2lostRun : SysState × List (Nat × List IncomingMessage) :=
  runRawOps [.append msg1, .drainRead 0, .append msg2, .drainClear 0] emptyState []

/-- Interleaved trace in which two drains both read before either clears. -/
def c2overlapRun : SysState × List (Nat × List IncomingMessage) :=
  runRawOps [.append msg1, .drainRead 0, .drainRead 1, .drainClear 0, .drainClear 1]
    emptyState []

/-- Claim C2 counterexample: the drain of `processUserBatch` is a `LRANGE`
followed by a separate `DEL`, not one atomic read-and-clear.  In the first
trace `msg2` is appended between the read and the clear of the only drain:
it appears in no drain's output and not in the final batch — the event is
lost, so the drained multiset differs from the appended multiset.  In the
second trace two concurrent drains both read before either clears and
return overlapping (identical) batches. -/
theorem claim2_counterexample_interleaved_drain_loses_event :
    c2lostRun.2 = [(0, [msg1])]
    ∧ (c2lostRun.1).batch = []
    ∧ msg2 ∉ (c2lostRun.2.flatMap (fun p => p.2))
    ∧ msg2 ∉ (c2lostRun.1).batch
    ∧ c2overlapRun.2 = [(0, [msg1]), (1, [msg1])] := by
  decide

/-- Claim C2 (amended): when no operation interleaves between a drain's
read and its clear, the batch store loses and duplicates nothing — for any
sequence of appends and uninterleaved drains, the concatenation of the
drained batches followed by the remaining batch equals the initial batch
followed by all appended events, in arrival order.  (Hence drains are
pairwise non-overlapping and each drained batch preserves per-sender
arrival order.) -/
theorem claim2_sequential_drains_preserve_events (ops : List SeqOp) (s : SysState) :
    ((runSeqOps ops s).2).flatten ++ ((runSeqOps ops s).1).batch
      = s.batch ++ appendedOf ops := by
  induction ops generalizing s with
  | nil => simp [runSeqOps, appendedOf]
  | cons op ops ih =>
    cases op with
    | append m =>
      simp only [runSeqOps, appendedOf]
      rw [ih]
      simp [addMessageToBatch]
    | drain =>
      have h := ih (clearBatch s)
      rcases hrs : runSeqOps ops (clearBatch s) with ⟨s1, outs⟩
      rw [hrs] at h
      simp only [clearBatch] at h
      simp only [runSeqOps, hrs, List.flatten_cons, List.append_assoc, getBatch,
        appendedOf]
      rw [h]
      simp

/-! ## Claim C5 -/

/-- Claim C5: `acquireProcessingLock` is the atomic `SET NX EX`: it
returns `true` exactly when no valid (unexpired) lock exists at the call;
on success the state holds a lock valid at `now` and an immediate second
acquisition fails (at most one valid lock per sender); on failure the
state is unchanged; and `releaseProcessingLock` leaves no valid lock. -/
theorem claim5_lock_acquire_exclusive (now timeoutMs : Nat) (s : SysState)
    (h : 0 < timeoutMs) :
    ((acquireProcessingLock now timeoutMs s).1 = true ↔ lockValid now s = false)
    ∧ ((acquireProcessingLock now timeoutMs s).1 = true →
        lockValid now (acquireProcessingLock now timeoutMs s).2 = true
        ∧ (acquireProcessingLock now timeoutMs
            (acquireProcessingLock now timeoutMs s).2).1 = false)
    ∧ ((acquireProcessingLock now timeoutMs s).1 = false →
        (acquireProcessingLock now timeoutMs s).2 = s)
    ∧ lockValid now (releaseProcessingLock s) = false := by
  have hms : 1000 ≤ 1000 * ((timeoutMs + 999) / 1000) := by
    have h1 : 1 ≤ (timeoutMs + 999) / 1000 := by
      apply Nat.one_le_div_iff (by omega) |>.mpr
      omega
    omega
  cases hv : lockValid now s with
  | true =>
    refine ⟨by simp [acquireProcessingLock, hv], by simp [acquireProcessingLock, hv],
      by simp [acquireProcessingLock, hv], by simp [releaseProcessingLock, lockValid]⟩
  | false =>
    have hvalid : lockValid now
        { s with lock := some (now + 1000 * ((timeoutMs + 999) / 1000)) } = true := by
      simp only [lockValid, decide_eq_true_eq]
      omega
    refine ⟨by simp [acquireProcessingLock, hv], ?_,
      by simp [acquireProcessingLock, hv], by simp [releaseProcessingLock, lockValid]⟩
    intro _
    refine ⟨by simpa [acquireProcessingLock, hv] using hvalid, ?_⟩
    simp [acquireProcessingLock, hv, hvalid]

/-- Claim C5 witness: a concrete acquisition on a lock-free sender. -/
theorem claim5_lock_acquire_exclusive_witness :
    ((acquireProcessingLock 0 30000 emptyState).1 = true ↔ lockValid 0 emptyState = false)
    ∧ ((acquireProcessingLock 0 30000 emptyState).1 = true →
        lockValid 0 (acquireProcessingLock 0 30000 emptyState).2 = true
        ∧ (acquireProcessingLock 0 30000
            (acquireProcessingLock 0 30000 emptyState).2).1 = false)
    ∧ ((acquireProcessingLock 0 30000 emptyState).1 = false →
        (acquireProcessingLock 0 30000 emptyState).2 = emptyState)
    ∧ lockValid 0 (releaseProcessingLock emptyState) = false :=
  claim5_lock_acquire_exclusive 0 30000 emptyState (by decide)

/-! ## Claim C6 -/

theorem finishProcessing_lock_none (p : SysState × LoopExit) :
    ((finishProcessing p).1).lock = none := by
  rcases p with ⟨s, ex⟩
  cases ex <;> simp [finishProcessing, releaseProcessingLock]

/-- Claim C6: every `processUserBatch` execution that begins while the
sender's lock is held ends with the lock released, for every schedule of
external interference and collaborator outcomes — success, empty batch,
cancellation without restart, restart chains, and error paths all flow
through the guaranteed-run cleanup. -/
theorem claim6_lock_always_released (now : Nat) (atts : List AttemptSpec)
    (s : SysState) (h : isProcessing now s = true) :
    ((processUserBatch now atts s).1).lock = none := by
  unfold processUserBatch
  rw [h]
  simp only [Bool.not_true, Bool.false_eq_true, if_false]
  exact finishProcessing_lock_none _

/-- Claim C6 witness: a concrete run (locked sender, one queued event, a
quiet successful attempt) ends with the lock released. -/
theorem claim6_lock_always_released_witness :
    isProcessing 0 { emptyState with batch := [msg1], lock := some 30000 } = true
    ∧ ((processUserBatch 0 []
        { emptyState with batch := [msg1], lock := some 30000 }).1).lock = none :=
  ⟨by decide,
   claim6_lock_always_released 0 [] _ (by decide)⟩

/-! ## Claim C7 -/

/-- Five events arriving within one debounce window: the first acquires the
lock and arms the timer; the following four take the interrupt path. -/
def c7run1 : SysState × EntryAction := handleIncomingMessage 0 msg1 emptyState
def c7run2 : SysState × EntryAction := handleIncomingMessage 50 msg2 c7run1.1
def c7run3 : SysState × EntryAction := handleIncomingMessage 60 msg3 c7run2.1
def c7run4 : SysState × EntryAction := handleIncomingMessage 70 msg4 c7run3.1
def c7run5 : SysState × EntryAction := handleIncomingMessage 80 msg5 c7run4.1

/-- Claim C7 counterexample: with the configured window (2000 ms) and max
batch size (5), five events arriving within 100 ms do **not** fire the
drain right after the 5th event.  The first event arms the timer
(`scheduleTimer 2000`); events 2-5 find the lock held and take the
interrupt branch, which never checks the batch size, so the 5th event
yields `interrupted`, not `processImmediately`, even though the batch has
reached size 5 before the window elapsed. -/
theorem claim7_counterexample_fifth_event_does_not_fire :
    c7run1.2 = EntryAction.scheduleTimer 2000
    ∧ (c7run5.1).batch.length = 5
    ∧ c7run5.2 = EntryAction.interrupted false 4
    ∧ c7run5.2 ≠ EntryAction.processImmediately := by
  decide

/-- Claim C7 (amended): the max-size immediate fire happens only on the
event that acquires the lock: `handleIncomingMessage` processes the batch
immediately iff the message is not a RESET command, no valid lock exists
at arrival, and the batch (after the append) has reached
`maxBatchSize`.  Events arriving while the lock is held take the
interrupt branch and never fire early, so the drain waits for the
debounce timer. -/
theorem claim7_immediate_fire_iff (now : Nat) (m : IncomingMessage) (s : SysState) :
    (handleIncomingMessage now m s).2 = EntryAction.processImmediately ↔
      (jsToUpperCase (jsTrim m.content) ≠ str "RESET"
       ∧ lockValid now s = false
       ∧ orchestratorConfig.maxBatchSize ≤ s.batch.length + 1) := by
  unfold handleIncomingMessage
  by_cases hr : jsToUpperCase (jsTrim m.content) = str "RESET"
  · simp [hr]
  · have hlock : isProcessing now (addMessageToBatch m s) = lockValid now s := by
      simp [isProcessing, lockValid, addMessageToBatch]
    cases hv : lockValid now s with
    | true =>
      simp [hr, hlock, hv]
    | false =>
      have hacq : acquireProcessingLock now 30000 (addMessageToBatch m s)
          = (true, { addMessageToBatch m s with
              lock := some (now + 1000 * ((30000 + 999) / 1000)) }) := by
        have : lockValid now (addMessageToBatch m s) = false := by
          simpa [lockValid, addMessageToBatch] using hv
        simp [acquireProcessingLock, this]
      simp only [hr, hlock, hv, hacq, if_false, Bool.false_eq_true]
      by_cases hsize : orchestratorConfig.maxBatchSize ≤ s.batch.length + 1
      · simp [getBatchSize, addMessageToBatch, hsize, hr]
      · simp [getBatchSize, addMessageToBatch, hsize, hr]

/-! ## Claim C8 -/

/-- Sender with a valid lock, a pending batch and a registered in-flight
abort controller, about to receive a RESET command. -/
def c8state : SysState :=
  { batch := [msg1], lock := some 1000000, generation := some 1,
    controllers := [(1, 0)], aborted := [], nextCtrl := 1,
    sessionExists := true, sessionHistory := [(str "user", str "ciao")],
    sent := [] }

def msgReset : IncomingMessage :=
  { id := str "w9", sender := phone, content := str "  reset ", timestamp := 500,
    whatsappPhoneId := none }

/-- Claim C8 counterexample: a RESET command arriving while a unit is in
flight leaves the orchestrator's batch and lock untouched and aborts
nothing — the claim's "the sender's batch and lock are cleared
immediately, short-circuiting any in-flight processing unit" is false.
(The RESET branch clears the *session* — history and session entry — not
the orchestrator state.) -/
theorem claim8_counterexample_reset_keeps_batch_and_lock :
    ((handleIncomingMessage 0 msgReset c8state).1).batch = [msg1]
    ∧ ((handleIncomingMessage 0 msgReset c8state).1).lock = some 1000000
    ∧ ((handleIncomingMessage 0 msgReset c8state).1).controllers = [(1, 0)]
    ∧ ((handleIncomingMessage 0 msgReset c8state).1).aborted = []
    ∧ (handleIncomingMessage 0 msgReset c8state).2 = EntryAction.resetHandled := by
  decide

/-- Claim C8 (amended): an inbound RESET control command (content that
trims and uppercases to `RESET`) is never appended to the sender's batch
and skips the AI-generation collaborator entirely; it clears the sender's
*conversation history and session* and sends a confirmation reply, but
leaves the orchestrator batch, lock, generation and abort-controller
registry untouched and does not short-circuit an in-flight unit. -/
theorem claim8_reset_bypass (now : Nat) (m : IncomingMessage) (s : SysState)
    (h : jsToUpperCase (jsTrim m.content) = str "RESET") :
    handleIncomingMessage now m s =
      ({ s with sessionExists := false, sessionHistory := [],
                sent := s.sent ++ [resetReply] }, .resetHandled) := by
  unfold handleIncomingMessage
  rw [h]
  by_cases he : s.sessionExists <;>
    simp [clearConversationHistory, deleteSession, sendMessage, he]

/-- Claim C8 witness: the amended statement at the concrete RESET input. -/
theorem claim8_reset_bypass_witness :
    handleIncomingMessage 0 msgReset c8state =
      ({ c8state with sessionExists := false, sessionHistory := [],
                      sent := c8state.sent ++ [resetReply] }, .resetHandled) :=
  claim8_reset_bypass 0 msgReset c8state (by decide)

/-! ## Claim C10 -/

/-- Claim C10: if the pre-delivery recheck's awaited store read rejects
with any non-cancellation error, the catch of
`checkForNewMessagesBeforeSending` still delivers the originally produced
reply and the call resolves normally — the recheck's own failure never
suppresses delivery or fails the unit. -/
theorem claim10_recheck_failure_still_sends (e : JsError) (s : SysState)
    (response : List Char) (h : e ≠ JsError.abortError) :
    checkForNewMessagesBeforeSending (some e) s response
      = (sendMessage s response, .ok ()) := by
  unfold checkForNewMessagesBeforeSending
  simp [h]

/-- Claim C10 witness: a store-unavailable rejection during the recheck
still results in the reply being sent. -/
theorem claim10_recheck_failure_still_sends_witness :
    checkForNewMessagesBeforeSending (some JsError.storeUnavailable) c8state (str "ciao")
      = (sendMessage c8state (str "ciao"), .ok ()) :=
  claim10_recheck_failure_still_sends JsError.storeUnavailable c8state (str "ciao")
    (by decide)

/-! ## Claim C3 -/

/-- Normal sender (generation key holds `1`) whose batch contains one
event; a second event arrives between the AI result and the recheck. -/
def c3stateA : SysState :=
  { batch := [msg1], lock := some 1000000, generation := some 1,
    controllers := [], aborted := [], nextCtrl := 0, sessionExists := true,
    sessionHistory := [], sent := [] }

def c3attA : AttemptSpec :=
  { duringGen := [], aiFails := false, reply := str "rispA",
    beforeRecheck := [.interrupt msg2], recheckRead := none }

def c3runA : SysState × RunOutcome := processUserBatch 0 [c3attA] c3stateA

/-- Fresh sender (generation key absent); an interrupting event arrives
while the AI call runs and its abort lands (the post-increment lookup hits
because `INCR` on the absent key returns the default read `1`). -/
def c3stateB : SysState :=
  { batch := [msg1], lock := some 1000000, generation := none,
    controllers := [], aborted := [], nextCtrl := 0, sessionExists := true,
    sessionHistory := [], sent := [] }

def c3attB : AttemptSpec :=
  { duringGen := [.interrupt msg2], aiFails := false, reply := str "rispB",
    beforeRecheck := [], recheckRead := none }

def c3runB : SysState × RunOutcome := processUserBatch 0 [c3attB] c3stateB

/-- Claim C3 counterexample, two concrete runs.  Run A (restart branch):
after the cancellation-triggered restart the next attempt drains only
`msg2` — the conversation history shows the restarted user turn is `due`
alone, not the claimed superset of `uno` and `due` (the first drain's
events were cleared and are never re-queued).  Run B (no-restart branch):
a cancellation with `current == G` (fresh sender) ends the unit silently —
`sent` stays empty, so no user-visible fallback reply is produced,
contradicting "surfaced as a processing error (same handling as a
generation-collaborator failure, including the user-visible fallback
reply)". -/
theorem claim3_counterexample_restart_and_silent_cancel :
    c3runA.2 = RunOutcome.finished LoopExit.success
    ∧ (c3runA.1).sessionHistory =
        [(userRole, str "uno"), (assistantRole, str "rispA"),
         (userRole, str "due"), (assistantRole, str "ok")]
    ∧ (c3runA.1).sent = [str "ok"]
    ∧ c3runB.2 = RunOutcome.finished LoopExit.abortNoRestart
    ∧ (c3runB.1).sent = []
    ∧ (c3runB.1).lock = none
    ∧ (c3runB.1).batch = [msg2] := by
  decide

/-- Claim C3 (amended): when an attempt under generation `G` ends with an
`AbortError`, the loop re-reads the current generation.  If it is strictly
greater, it adopts it, registers a fresh abort controller under it, and
restarts from the drain — the restarted attempt processes only the events
appended after the previous drain cleared the batch, not a superset.  If
it is not greater, the iteration stops silently: no fallback reply is sent
(the outer catch ignores abort errors) and the cleanup only releases the
lock. -/
theorem claim3_abort_restarts_or_ends_silently (fuel : Nat) (att : AttemptSpec)
    (rest : List AttemptSpec) (generation ctrl : Nat) (s t : SysState)
    (m0 : IncomingMessage) (ms : List IncomingMessage)
    (hbatch : getBatch s = m0 :: ms)
    (habort : runProcessBatch att (mkMessageBatch (m0 :: ms) m0) ctrl (clearBatch s)
      = (t, .error .abortError)) :
    (generation < getProcessingGeneration t →
      processingLoop (fuel + 1) (att :: rest) generation ctrl s =
        processingLoop fuel rest (getProcessingGeneration t) t.nextCtrl
          (setAbortController (getProcessingGeneration t) t.nextCtrl
            { t with nextCtrl := t.nextCtrl + 1 }))
    ∧ (¬ generation < getProcessingGeneration t →
      processingLoop (fuel + 1) (att :: rest) generation ctrl s = (t, .abortNoRestart)
      ∧ finishProcessing (t, .abortNoRestart) = (releaseProcessingLock t, .abortNoRestart)
      ∧ (releaseProcessingLock t).sent = t.sent
      ∧ (releaseProcessingLock t).lock = none) := by
  have hstep : processingLoop (fuel + 1) (att :: rest) generation ctrl s =
      (let currentGeneration := getProcessingGeneration t
       if generation < currentGeneration then
         let (ctrl2, s3) := newAbortController t
         let s4 := setAbortController currentGeneration ctrl2 s3
         processingLoop fuel rest currentGeneration ctrl2 s4
       else (t, .abortNoRestart)) := by
    simp only [processingLoop]
    rw [hbatch]
    simp only [List.headD_cons, List.tail_cons]
    rw [habort]
  constructor
  · intro hlt
    rw [hstep]
    simp only [newAbortController, hlt, if_true]
  · intro hge
    rw [hstep]
    exact ⟨by simp [hge], rfl, rfl, rfl⟩

/-- Claim C3 witness: the amended statement applied to the concrete
no-restart run (fresh sender, cancellation with `current == G`). -/
theorem claim3_abort_restarts_or_ends_silently_witness :
    processingLoop 2 [c3attB] 1 0
        { c3stateB with controllers := [(1, 0)], nextCtrl := 1 }
      = ({ batch := [msg2], lock := some 1000000, generation := some 1,
           controllers := [], aborted := [0], nextCtrl := 1,
           sessionExists := true, sessionHistory := [], sent := [] },
         .abortNoRestart)
    ∧ finishProcessing
        ({ batch := [msg2], lock := some 1000000, generation := some 1,
           controllers := [], aborted := [0], nextCtrl := 1,
           sessionExists := true, sessionHistory := [], sent := [] },
         .abortNoRestart)
      = (releaseProcessingLock
          { batch := [msg2], lock := some 1000000, generation := some 1,
            controllers := [], aborted := [0], nextCtrl := 1,
            sessionExists := true, sessionHistory := [], sent := [] },
         .abortNoRestart)
    ∧ (releaseProcessingLock
        { batch := [msg2], lock := some 1000000, generation := some 1,
          controllers := [], aborted := [0], nextCtrl := 1,
          sessionExists := true, sessionHistory := [], sent := [] }).sent
      = ({ batch := [msg2], lock := some 1000000, generation := some 1,
           controllers := [], aborted := [0], nextCtrl := 1,
           sessionExists := true, sessionHistory := [], sent := [] } : SysState).sent
    ∧ (releaseProcessingLock
        { batch := [msg2], lock := some 1000000, generation := some 1,
          controllers := [], aborted := [0], nextCtrl := 1,
          sessionExists := true, sessionHistory := [], sent := [] }).lock = none :=
  (claim3_abort_restarts_or_ends_silently 1 c3attB [] 1 0
      { c3stateB with controllers := [(1, 0)], nextCtrl := 1 } _ msg1 []
      (by decide) (by decide)).2 (by decide)

/-! ## Claim C4 -/

/-- Normal sender: one drained event, a second event interrupts between
the AI result and the recheck, so the recheck sees a non-empty batch. -/
def c4stateA : SysState :=
  { batch := [msg3], lock := some 1000000, generation := some 1,
    controllers := [], aborted := [], nextCtrl := 0, sessionExists := true,
    sessionHistory := [], sent := [] }

def c4attA : AttemptSpec :=
  { duringGen := [], aiFails := false, reply := str "stale",
    beforeRecheck := [.interrupt msg4], recheckRead := none }

def c4runA : SysState × RunOutcome := processUserBatch 0 [c4attA] c4stateA

/-- Fresh sender (generation key absent): an event is appended before the
recheck without an accompanying increment (its sender saw the lock as
expired), so the recheck fires but the incremented generation does not
exceed `G`. -/
def c4stateB : SysState :=
  { batch := [msg3], lock := some 1000000, generation := none,
    controllers := [], aborted := [], nextCtrl := 0, sessionExists := true,
    sessionHistory := [], sent := [] }

def c4attB : AttemptSpec :=
  { duringGen := [], aiFails := false, reply := str "stale2",
    beforeRecheck := [.append msg4], recheckRead := none }

def c4runB : SysState × RunOutcome := processUserBatch 0 [c4attB] c4stateB

/-- Claim C4 counterexample, two concrete runs.  Run A: the recheck finds
`msg4` pending, the stale reply is discarded (never sent) and processing
restarts — but the restarted unit processes only `quattro`, not the
claimed combined old-plus-new unit (`tre` was cleared at the first drain
and never re-queued; it survives only in the session history).  Run B
(fresh sender): the recheck discards the reply and increments the
generation, but the incremented value (`1`) does not exceed the
iteration's generation (`1`), so no restart happens and **no** reply is
ever delivered for the unit — contradicting "the generation is advanced,
and processing restarts on the old-plus-new events" and "exactly one
reply is ultimately delivered". -/
theorem claim4_counterexample_recheck_restart :
    c4runA.2 = RunOutcome.finished LoopExit.success
    ∧ (c4runA.1).sent = [str "ok"]
    ∧ (str "stale") ∉ (c4runA.1).sent
    ∧ (c4runA.1).sessionHistory =
        [(userRole, str "tre"), (assistantRole, str "stale"),
         (userRole, str "quattro"), (assistantRole, str "ok")]
    ∧ c4runB.2 = RunOutcome.finished LoopExit.abortNoRestart
    ∧ (c4runB.1).sent = []
    ∧ (c4runB.1).batch = [msg4] := by
  decide

/-- Claim C4 (amended): immediately before delivery the recheck peeks the
sender's batch.  If it is non-empty, the just-produced reply is discarded
(the call raises `AbortError` without sending) and the generation counter
is incremented; if it is empty, the reply is delivered.  The subsequent
restart happens iff the incremented value exceeds the generation read by
the iteration, which — for an iteration whose generation is current —
holds exactly when the sender's generation key existed before the
increment (`INCR` on an absent key yields `1`, the same value the
iteration read as its default). -/
theorem claim4_recheck_discards_and_increments (s : SysState) (response : List Char) :
    (getBatch s ≠ [] →
      checkForNewMessagesBeforeSending none s response
        = ({ s with generation := some (s.generation.getD 0 + 1) },
           .error .abortError))
    ∧ (getBatch s = [] →
      checkForNewMessagesBeforeSending none s response
        = (sendMessage s response, .ok ()))
    ∧ (getProcessingGeneration s < (incrementProcessingGeneration s).1
        ↔ s.generation ≠ none) := by
  refine ⟨?_, ?_, ?_⟩
  · intro hne
    have hlen : 0 < (getBatch s).length := List.length_pos.mpr hne
    simp only [checkForNewMessagesBeforeSending, incrementProcessingGeneration]
    rw [if_pos (by simpa using hlen)]
  · intro hempty
    simp [checkForNewMessagesBeforeSending, hempty]
  · cases hg : s.generation with
    | none => simp [getProcessingGeneration, incrementProcessingGeneration, hg]
    | some k => simp [getProcessingGeneration, incrementProcessingGeneration, hg]

/-- State at the recheck for the C4 witness: one pending event and an
existing generation key. -/
def c4wstate : SysState := { c4stateA with batch := [msg4], generation := some 2 }

/-- Claim C4 witness: the amended statement at a concrete pre-recheck
state with one pending event and an existing generation key. -/
theorem claim4_recheck_discards_and_increments_witness :
    checkForNewMessagesBeforeSending none c4wstate (str "stale")
      = ({ c4wstate with generation := some (c4wstate.generation.getD 0 + 1) },
         .error .abortError) :=
  (claim4_recheck_discards_and_increments c4wstate (str "stale")).1 (by decide)

/-! ## Claim C9: string lemmas

The goal is the clean characterization of `combineMessages` on lists of
two or more elements: the result is all the maximal non-whitespace runs
(`words`) of all the elements, in order, joined by single spaces. -/

theorem words_nil : words [] = [] := by
  rw [words]

theorem words_cons_ws {c : Char} (cs : List Char) (h : isWs c = true) :
    words (c :: cs) = words cs := by
  rw [words]
  simp [h]

theorem words_cons_nws {c : Char} (cs : List Char) (h : isWs c = false) :
    words (c :: cs) =
      (c :: cs.takeWhile (fun d => !isWs d)) :: words (cs.dropWhile (fun d => !isWs d)) := by
  rw [words]
  simp [h]

theorem collapse_nil : collapse [] = [] := by
  rw [collapse]

theorem collapse_cons_ws {c : Char} (cs : List Char) (h : isWs c = true) :
    collapse (c :: cs) = ' ' :: collapse (cs.dropWhile isWs) := by
  rw [collapse]
  simp [h]

theorem collapse_cons_nws {c : Char} (cs : List Char) (h : isWs c = false) :
    collapse (c :: cs) = c :: collapse cs := by
  rw [collapse]
  simp [h]

theorem joinSp_cons {w : List Char} {ws : List (List Char)} (h : ws ≠ []) :
    joinSp (w :: ws) = w ++ ' ' :: joinSp ws := by
  cases ws with
  | nil => exact absurd rfl h
  | cons w2 t => rfl

theorem takeWhile_append_all {p : α → Bool} {w : List α} (r : List α)
    (h : ∀ a ∈ w, p a = true) : (w ++ r).takeWhile p = w ++ r.takeWhile p := by
  induction w with
  | nil => simp
  | cons a w ih =>
    have ha : p a = true := h a (by simp)
    simp only [List.cons_append, List.takeWhile_cons_of_pos ha, List.cons.injEq, true_and]
    exact ih (fun b hb => h b (by simp [hb]))

theorem dropWhile_append_all {p : α → Bool} {w : List α} (r : List α)
    (h : ∀ a ∈ w, p a = true) : (w ++ r).dropWhile p = r.dropWhile p := by
  induction w with
  | nil => simp
  | cons a w ih =>
    have ha : p a = true := h a (by simp)
    simp only [List.cons_append, List.dropWhile_cons_of_pos ha]
    exact ih (fun b hb => h b (by simp [hb]))

theorem dropWhile_append_of_ne_nil {p : α → Bool} {w : List α} (r : List α)
    (h : w.dropWhile p ≠ []) : (w ++ r).dropWhile p = w.dropWhile p ++ r := by
  induction w with
  | nil => exact absurd rfl h
  | cons a w ih =>
    by_cases ha : p a
    · simp only [List.cons_append, List.dropWhile_cons_of_pos ha]
      exact ih (by simpa [List.dropWhile_cons_of_pos ha] using h)
    · simp [List.dropWhile_cons_of_neg ha]

theorem words_all_ws {s : List Char} (h : ∀ c ∈ s, isWs c = true) :
    words s = [] := by
  induction s with
  | nil => exact words_nil
  | cons c cs ih =>
    rw [words_cons_ws cs (h c (by simp))]
    exact ih (fun d hd => h d (by simp [hd]))

theorem words_dropWhile_ws (x : List Char) :
    words (x.dropWhile isWs) = words x := by
  induction x with
  | nil => simp
  | cons c cs ih =>
    cases hc : isWs c with
    | true =>
      rw [List.dropWhile_cons_of_pos hc, ih, words_cons_ws cs hc]
    | false =>
      rw [List.dropWhile_cons_of_neg (by simp [hc])]

theorem words_append_all_ws_aux (n : Nat) :
    ∀ x s : List Char, x.length ≤ n → (∀ c ∈ s, isWs c = true) →
      words (x ++ s) = words x := by
  induction n with
  | zero =>
    intro x s hx hs
    have : x = [] := List.length_eq_zero.mp (Nat.le_zero.mp hx)
    subst this
    simpa [words_nil] using words_all_ws hs
  | succ n ih =>
    intro x s hx hs
    match x with
    | [] => simpa [words_nil] using words_all_ws hs
    | c :: cs =>
      cases hc : isWs c with
      | true =>
        rw [List.cons_append, words_cons_ws _ hc, words_cons_ws cs hc]
        exact ih cs s (by simpa using Nat.le_of_succ_le_succ hx) hs
      | false =>
        have hsplit : cs.takeWhile (fun d => !isWs d) ++ cs.dropWhile (fun d => !isWs d) = cs :=
          List.takeWhile_append_dropWhile ..
        rw [List.cons_append, words_cons_nws _ hc, words_cons_nws cs hc]
        cases hr : cs.dropWhile (fun d => !isWs d) with
        | nil =>
          have hall : ∀ a ∈ cs, (fun d => !isWs d) a = true :=
            List.dropWhile_eq_nil_iff.mp hr
          have htk : cs.takeWhile (fun d => !isWs d) = cs := by
            conv_rhs => rw [← hsplit]
            rw [hr, List.append_nil]
          have htks : (cs ++ s).takeWhile (fun d => !isWs d) = cs := by
            rw [takeWhile_append_all s hall]
            have : s.takeWhile (fun d => !isWs d) = [] := by
              cases s with
              | nil => rfl
              | cons d s2 =>
                have : isWs d = true := hs d (by simp)
                simp [List.takeWhile_cons, this]
            rw [this, List.append_nil]
          have hdps : (cs ++ s).dropWhile (fun d => !isWs d) = s := by
            rw [dropWhile_append_all s hall]
            cases s with
            | nil => rfl
            | cons d s2 =>
              have : isWs d = true := hs d (by simp)
              simp [List.dropWhile_cons, this]
          rw [htks, hdps, htk, words_nil, words_all_ws hs]
        | cons d r2 =>
          have hd : isWs d = true := by
            have h0 : 0 < (cs.dropWhile (fun d => !isWs d)).length := by
              rw [hr]; simp
            have := List.dropWhile_get_zero_not (p := fun d => !isWs d) cs h0
            have hget : (cs.dropWhile (fun d => !isWs d)).get ⟨0, h0⟩ = d := by
              simp [hr]
            rw [hget] at this
            simpa using this
          have hwall : ∀ a ∈ cs.takeWhile (fun d => !isWs d), (fun d => !isWs d) a = true := by
            intro a ha
            simpa using List.mem_takeWhile_imp ha
          have htks : (cs ++ s).takeWhile (fun d => !isWs d)
              = cs.takeWhile (fun d => !isWs d) := by
            conv_lhs => rw [← hsplit, List.append_assoc]
            rw [takeWhile_append_all _ hwall, hr]
            simp [List.takeWhile_cons, hd]
          have hdps : (cs ++ s).dropWhile (fun d => !isWs d)
              = (d :: r2) ++ s := by
            conv_lhs => rw [← hsplit, List.append_assoc]
            rw [dropWhile_append_all _ hwall, hr]
            simp [List.dropWhile_cons, hd]
          rw [htks, hdps]
          have hlen : (d :: r2).length ≤ n := by
            have h1 : (cs.dropWhile (fun d => !isWs d)).length ≤ cs.length :=
              dropWhile_length_le ..
            rw [hr] at h1
            have h2 : cs.length ≤ n := by simpa using Nat.le_of_succ_le_succ hx
            omega
          rw [ih (d :: r2) s hlen hs]

theorem words_append_all_ws {x s : List Char} (h : ∀ c ∈ s, isWs c = true) :
    words (x ++ s) = words x :=
  words_append_all_ws_aux x.length x s (Nat.le_refl _) h

theorem words_append_space_aux (n : Nat) :
    ∀ x y : List Char, x.length ≤ n →
      words (x ++ ' ' :: y) = words x ++ words y := by
  induction n with
  | zero =>
    intro x y hx
    have : x = [] := List.length_eq_zero.mp (Nat.le_zero.mp hx)
    subst this
    rw [List.nil_append, words_cons_ws y (by decide), words_nil, List.nil_append]
  | succ n ih =>
    intro x y hx
    match x with
    | [] =>
      rw [List.nil_append, words_cons_ws y (by decide), words_nil, List.nil_append]
    | c :: cs =>
      cases hc : isWs c with
      | true =>
        rw [List.cons_append, words_cons_ws _ hc, words_cons_ws cs hc]
        exact ih cs y (by simpa using Nat.le_of_succ_le_succ hx)
      | false =>
        have hsplit : cs.takeWhile (fun d => !isWs d) ++ cs.dropWhile (fun d => !isWs d) = cs :=
          List.takeWhile_append_dropWhile ..
        rw [List.cons_append, words_cons_nws _ hc, words_cons_nws cs hc]
        cases hr : cs.dropWhile (fun d => !isWs d) with
        | nil =>
          have hall : ∀ a ∈ cs, (fun d => !isWs d) a = true :=
            List.dropWhile_eq_nil_iff.mp hr
          have htk : cs.takeWhile (fun d => !isWs d) = cs := by
            conv_rhs => rw [← hsplit]
            rw [hr, List.append_nil]
          have htks : (cs ++ ' ' :: y).takeWhile (fun d => !isWs d) = cs := by
            rw [takeWhile_append_all _ hall]
            rw [List.takeWhile_cons_of_neg (by simp [isWs]), List.append_nil]
          have hdps : (cs ++ ' ' :: y).dropWhile (fun d => !isWs d) = ' ' :: y := by
            rw [dropWhile_append_all _ hall]
            rw [List.dropWhile_cons_of_neg (by simp [isWs])]
          rw [htks, hdps, htk, words_nil, words_cons_ws y (by decide)]
          simp
        | cons d r2 =>
          have hd : isWs d = true := by
            have h0 : 0 < (cs.dropWhile (fun d => !isWs d)).length := by
              rw [hr]; simp
            have := List.dropWhile_get_zero_not (p := fun d => !isWs d) cs h0
            have hget : (cs.dropWhile (fun d => !isWs d)).get ⟨0, h0⟩ = d := by
              simp [hr]
            rw [hget] at this
            simpa using this
          have hwall : ∀ a ∈ cs.takeWhile (fun d => !isWs d), (fun d => !isWs d) a = true := by
            intro a ha
            simpa using List.mem_takeWhile_imp ha
          have htks : (cs ++ ' ' :: y).takeWhile (fun d => !isWs d)
              = cs.takeWhile (fun d => !isWs d) := by
            conv_lhs => rw [← hsplit, List.append_assoc]
            rw [takeWhile_append_all _ hwall, hr, List.cons_append,
              List.takeWhile_cons_of_neg (by simp [hd]), List.append_nil]
          have hdps : (cs ++ ' ' :: y).dropWhile (fun d => !isWs d)
              = (d :: r2) ++ ' ' :: y := by
            conv_lhs => rw [← hsplit, List.append_assoc]
            rw [dropWhile_append_all _ hwall, hr, List.cons_append,
              List.dropWhile_cons_of_neg (by simp [hd])]
          have hlen : (d :: r2).length ≤ n := by
            have h1 : (cs.dropWhile (fun d => !isWs d)).length ≤ cs.length :=
              dropWhile_length_le ..
            rw [hr] at h1
            have h2 : cs.length ≤ n := by simpa using Nat.le_of_succ_le_succ hx
            omega
          rw [htks, hdps, ih (d :: r2) y hlen]
          simp

theorem words_append_space (x y : List Char) :
    words (x ++ ' ' :: y) = words x ++ words y :=
  words_append_space_aux x.length x y (Nat.le_refl _)

theorem trimStart_cons_ws {c : Char} (u : List Char) (h : isWs c = true) :
    trimStart (c :: u) = trimStart u := by
  simp [trimStart, List.dropWhile_cons, h]

theorem trimStart_cons_nws {c : Char} (u : List Char) (h : isWs c = false) :
    trimStart (c :: u) = c :: u := by
  simp [trimStart, List.dropWhile_cons, h]

theorem trimEnd_eq_nil_iff {x : List Char} :
    trimEnd x = [] ↔ ∀ c ∈ x, isWs c = true := by
  constructor
  · intro h c hc
    have : x.reverse.dropWhile isWs = [] := by
      have := congrArg List.reverse h
      simpa [trimEnd] using this
    exact List.dropWhile_eq_nil_iff.mp this c (by simpa using hc)
  · intro h
    have : x.reverse.dropWhile isWs = [] :=
      List.dropWhile_eq_nil_iff.mpr (fun c hc => h c (by simpa using hc))
    simp [trimEnd, this]

theorem trimEnd_append_of_ne_nil {a b : List Char} (h : trimEnd b ≠ []) :
    trimEnd (a ++ b) = a ++ trimEnd b := by
  have hb : b.reverse.dropWhile isWs ≠ [] := by
    intro hnil
    exact h (by simp [trimEnd, hnil])
  calc trimEnd (a ++ b)
      = ((b.reverse ++ a.reverse).dropWhile isWs).reverse := by
        simp [trimEnd]
    _ = (b.reverse.dropWhile isWs ++ a.reverse).reverse := by
        rw [dropWhile_append_of_ne_nil _ hb]
    _ = a ++ trimEnd b := by
        simp [trimEnd]

theorem trimEnd_append_ws_singleton {a : List Char} {d : Char} (h : isWs d = true) :
    trimEnd (a ++ [d]) = trimEnd a := by
  simp [trimEnd, List.dropWhile_cons, h]

theorem trimEnd_all_nws {x : List Char} (h : ∀ c ∈ x, isWs c = false) :
    trimEnd x = x := by
  have : x.reverse.dropWhile isWs = x.reverse := by
    cases hx : x.reverse with
    | nil => rfl
    | cons c cr =>
      have hc : isWs c = false := by
        apply h
        have : c ∈ x.reverse := by rw [hx]; simp
        simpa using this
      simp [List.dropWhile_cons, hc]
  simp [trimEnd, this]

theorem trimEnd_ne_nil_of_head_nws {e : Char} (u : List Char) (h : isWs e = false) :
    trimEnd (e :: u) ≠ [] := by
  intro hnil
  have := trimEnd_eq_nil_iff.mp hnil e (by simp)
  rw [h] at this
  exact Bool.noConfusion this

theorem words_trimEnd (x : List Char) : words (trimEnd x) = words x := by
  have hdecomp : x = trimEnd x ++ (x.reverse.takeWhile isWs).reverse := by
    have h1 : x.reverse.takeWhile isWs ++ x.reverse.dropWhile isWs = x.reverse :=
      List.takeWhile_append_dropWhile ..
    have h2 := congrArg List.reverse h1
    rw [List.reverse_append, List.reverse_reverse] at h2
    rw [trimEnd]
    exact h2.symm
  have hws : ∀ c ∈ (x.reverse.takeWhile isWs).reverse, isWs c = true := by
    intro c hc
    exact List.mem_takeWhile_imp (by simpa using hc)
  conv_rhs => rw [hdecomp]
  rw [words_append_all_ws hws]

theorem words_jsTrim (x : List Char) : words (jsTrim x) = words x := by
  rw [jsTrim, words_trimEnd, trimStart, words_dropWhile_ws]

theorem collapse_append_nws {w : List Char} (r : List Char)
    (h : ∀ a ∈ w, isWs a = false) : collapse (w ++ r) = w ++ collapse r := by
  induction w with
  | nil => simp
  | cons a w ih =>
    have ha : isWs a = false := h a (by simp)
    rw [List.cons_append, collapse_cons_nws _ ha, ih (fun b hb => h b (by simp [hb]))]
    rfl

theorem collapse_all_nws {x : List Char} (h : ∀ a ∈ x, isWs a = false) :
    collapse x = x := by
  have h2 := collapse_append_nws (w := x) [] h
  simpa [collapse_nil] using h2

theorem jsTrim_collapse_words_aux (n : Nat) :
    ∀ z : List Char, z.length ≤ n → jsTrim (collapse z) = joinSp (words z) := by
  induction n with
  | zero =>
    intro z hz
    have : z = [] := List.length_eq_zero.mp (Nat.le_zero.mp hz)
    subst this
    rw [collapse_nil, words_nil]
    rfl
  | succ n ih =>
    intro z hz
    match z with
    | [] =>
      rw [collapse_nil, words_nil]
      rfl
    | c :: cs =>
      have hcs : cs.length ≤ n := by simpa using Nat.le_of_succ_le_succ hz
      cases hc : isWs c with
      | true =>
        rw [collapse_cons_ws cs hc, words_cons_ws cs hc]
        have h1 : jsTrim (' ' :: collapse (cs.dropWhile isWs))
            = jsTrim (collapse (cs.dropWhile isWs)) := by
          simp only [jsTrim]
          rw [trimStart_cons_ws _ (by decide)]
        rw [h1, ih (cs.dropWhile isWs) (Nat.le_trans (dropWhile_length_le ..) hcs),
          words_dropWhile_ws]
      | false =>
        have hsplit : cs.takeWhile (fun d => !isWs d) ++ cs.dropWhile (fun d => !isWs d) = cs :=
          List.takeWhile_append_dropWhile ..
        have hw_nws : ∀ a ∈ cs.takeWhile (fun d => !isWs d), isWs a = false := by
          intro a ha
          have := List.mem_takeWhile_imp ha
          simpa using this
        rw [collapse_cons_nws cs hc, words_cons_nws cs hc]
        cases hr : cs.dropWhile (fun d => !isWs d) with
        | nil =>
          have hall : ∀ a ∈ cs, isWs a = false := by
            intro a ha
            have := List.dropWhile_eq_nil_iff.mp hr a ha
            simpa using this
          have htk : cs.takeWhile (fun d => !isWs d) = cs := by
            conv_rhs => rw [← hsplit]
            rw [hr, List.append_nil]
          have hj : jsTrim (c :: cs) = c :: cs := by
            rw [jsTrim, trimStart_cons_nws _ hc]
            exact trimEnd_all_nws (by
              intro a ha
              rcases List.mem_cons.mp ha with h1 | h1
              · rw [h1]; exact hc
              · exact hall a h1)
          rw [collapse_all_nws hall, htk, words_nil, hj]
          rfl
        | cons d r2 =>
          have hd : isWs d = true := by
            have h0 : 0 < (cs.dropWhile (fun d => !isWs d)).length := by
              rw [hr]; simp
            have := List.dropWhile_get_zero_not (p := fun d => !isWs d) cs h0
            have hget : (cs.dropWhile (fun d => !isWs d)).get ⟨0, h0⟩ = d := by
              simp [hr]
            rw [hget] at this
            simpa using this
          have hcol : collapse cs = cs.takeWhile (fun d => !isWs d) ++ collapse (d :: r2) := by
            conv_lhs => rw [← hsplit]
            rw [hr, collapse_append_nws _ hw_nws]
          rw [hcol, collapse_cons_ws r2 hd, words_cons_ws r2 hd]
          have hr2len : r2.length + 1 ≤ cs.length := by
            have h1 : (cs.dropWhile (fun d => !isWs d)).length ≤ cs.length :=
              dropWhile_length_le ..
            rw [hr] at h1
            simpa using h1
          cases hv2 : r2.dropWhile isWs with
          | nil =>
            rw [collapse_nil]
            have hwr2 : words r2 = [] := by
              rw [← words_dropWhile_ws r2, hv2, words_nil]
            rw [hwr2]
            have hLHS : jsTrim (c :: (cs.takeWhile (fun d => !isWs d) ++ ' ' :: []))
                = c :: cs.takeWhile (fun d => !isWs d) := by
              rw [jsTrim, trimStart_cons_nws _ hc]
              have hshape : c :: (cs.takeWhile (fun d => !isWs d) ++ ' ' :: [])
                  = (c :: cs.takeWhile (fun d => !isWs d)) ++ [' '] := by simp
              rw [hshape, trimEnd_append_ws_singleton (by decide)]
              exact trimEnd_all_nws (by
                intro a ha
                rcases List.mem_cons.mp ha with h1 | h1
                · rw [h1]; exact hc
                · exact hw_nws a h1)
            rw [hLHS]
            rfl
          | cons e v2 =>
            have he : isWs e = false := by
              have h0 : 0 < (r2.dropWhile isWs).length := by
                rw [hv2]; simp
              have := List.dropWhile_get_zero_not (p := isWs) r2 h0
              have hget : (r2.dropWhile isWs).get ⟨0, h0⟩ = e := by
                simp [hv2]
              rw [hget] at this
              simpa using this
            rw [collapse_cons_nws v2 he]
            have hIH : jsTrim (collapse (e :: v2)) = joinSp (words (e :: v2)) := by
              apply ih
              have hvlen : (r2.dropWhile isWs).length ≤ r2.length := dropWhile_length_le ..
              rw [hv2] at hvlen
              simp only [List.length_cons] at hvlen ⊢
              omega
            have hne : trimEnd (e :: collapse v2) ≠ [] :=
              trimEnd_ne_nil_of_head_nws _ he
            have hLHS : jsTrim (c :: (cs.takeWhile (fun d => !isWs d) ++ ' ' :: e :: collapse v2))
                = (c :: cs.takeWhile (fun d => !isWs d)) ++ ' ' :: trimEnd (e :: collapse v2) := by
              rw [jsTrim, trimStart_cons_nws _ hc]
              have hshape : c :: (cs.takeWhile (fun d => !isWs d) ++ ' ' :: e :: collapse v2)
                  = ((c :: cs.takeWhile (fun d => !isWs d)) ++ [' ']) ++ (e :: collapse v2) := by
                simp
              rw [hshape, trimEnd_append_of_ne_nil hne]
              simp
            have hjs : trimEnd (e :: collapse v2) = jsTrim (collapse (e :: v2)) := by
              rw [collapse_cons_nws v2 he, jsTrim, trimStart_cons_nws _ he]
            have hwr2 : words r2 = words (e :: v2) := by
              rw [← words_dropWhile_ws r2, hv2]
            have hwne : words (e :: v2) ≠ [] := by
              rw [words_cons_nws v2 he]
              simp
            rw [hwr2, joinSp_cons hwne, hLHS, hjs, hIH]

theorem jsTrim_collapse_words (z : List Char) :
    jsTrim (collapse z) = joinSp (words z) :=
  jsTrim_collapse_words_aux z.length z (Nat.le_refl _)

theorem words_joinSp (ps : List (List Char)) :
    words (joinSp ps) = ps.flatMap words := by
  induction ps with
  | nil => simp [joinSp, words_nil]
  | cons w ps ih =>
    cases ps with
    | nil => simp [joinSp]
    | cons w2 t =>
      rw [joinSp_cons (by simp), words_append_space, ih]
      simp

theorem flatMap_words_filter_ne_nil (xs : List (List Char)) :
    (xs.filter (fun x => x ≠ [])).flatMap words = xs.flatMap words := by
  induction xs with
  | nil => rfl
  | cons x xs ih =>
    by_cases hx : x = []
    · subst hx
      simpa [List.filter_cons, words_nil] using ih
    · simpa [List.filter_cons, hx] using ih

theorem flatMap_words_map_jsTrim (xs : List (List Char)) :
    (xs.map jsTrim).flatMap words = xs.flatMap words := by
  induction xs with
  | nil => rfl
  | cons x xs ih =>
    simp [words_jsTrim, ih]

/-- Claim C9: the combine step maps a single-element list through
unchanged, and for two or more elements the result is exactly the maximal
non-whitespace runs of all the elements, in arrival order, joined by
single spaces — i.e. the elements trimmed, empty ones dropped, joined in
order with single spaces, and every whitespace run collapsed. -/
theorem claim9_combine_preserves_words :
    (∀ m : List Char, combineMessages [m] = m)
    ∧ (∀ l : List (List Char), 2 ≤ l.length →
        combineMessages l = joinSp (l.flatMap words)) := by
  constructor
  · intro m
    rfl
  · intro l hl
    match l, hl with
    | a :: b :: t, _ =>
      have h0 : combineMessages (a :: b :: t)
          = jsTrim (collapse (joinSp
              (((a :: b :: t).map jsTrim).filter (fun x => x ≠ [])))) := rfl
      rw [h0, jsTrim_collapse_words, words_joinSp, flatMap_words_filter_ne_nil,
        flatMap_words_map_jsTrim]

/-- Claim C9 witness: the characterization applied to a concrete pair of
messy messages and the single-element pass-through at a concrete string. -/
theorem claim9_combine_preserves_words_witness :
    combineMessages [str "  ciao", str "a  b "]
      = joinSp (([str "  ciao", str "a  b "]).flatMap words)
    ∧ combineMessages [str " solo "] = str " solo " :=
  ⟨claim9_combine_preserves_words.2 [str "  ciao", str "a  b "] (by decide),
   claim9_combine_preserves_words.1 (str " solo ")⟩
